import Mathlib

/-
Formal model of the Exodus arcade shooter (src/main.py): the per-frame
simulation tick of the PLAYING state (player motion and clamping, damage-timer
expiry, firing, bullet motion, the alien update/collision loop), the keyboard
event handlers, the START/PLAYING/GAME_OVER state machine, and the JSON
user-store persistence, together with theorems about the program's invariants.

Python object identity for the alien dictionaries is modelled by tagging each
alien with a `Nat`; Python's value-based `list.remove` / `in` are modelled by
value-based removal and membership on the tagged list.  The random number
generator is modelled by an oracle `fresh : Nat → Alien` supplying respawned
aliens, and the file system by an explicit `store` plus a `readable` flag
(`load_users` returns the store when the file is readable and valid, and the
empty mapping otherwise).
-/

/-- `WIDTH` (main.py line 21): screen width in pixels. -/
def WIDTH : Int := 1920

/-- `HEIGHT` (main.py line 21): screen height in pixels. -/
def HEIGHT : Int := 1080

/-- `player_speed` (line 322). -/
def player_speed : Int := 7

/-- `bulletY_change` (line 330): upward bullet speed per frame. -/
def bulletY_change : Int := 20

/-- `bullet_delay` (line 331): milliseconds between accepted shots. -/
def bullet_delay : Int := 100

/-- The game states (line 305). -/
inductive Mode where
  | START
  | PLAYING
  | GAME_OVER
deriving DecidableEq, Repr

/-- The difficulty tiers (lines 308-312). -/
inductive Difficulty where
  | easy
  | medium
  | hard
deriving DecidableEq, Repr

/-- `difficulty_settings[...]["num_aliens"]` (lines 308-312). -/
def num_aliens : Difficulty → Nat
  | .easy => 20
  | .medium => 40
  | .hard => 60

/-- `difficulty_settings[...]["alien_speed"]` (lines 308-312). -/
def alien_speed : Difficulty → Int
  | .easy => 4
  | .medium => 6
  | .hard => 8

/-- `difficulty_settings[...]["alien_drop"]` (lines 308-312). -/
def alien_drop : Difficulty → Int
  | .easy => 50
  | .medium => 60
  | .hard => 70

/-- An alien: its rect position (width and height are fixed at 60, lines 337,
358-359) and its horizontal velocity `x_change` (line 360). -/
structure Alien where
  x : Int
  y : Int
  x_change : Int
deriving DecidableEq, Repr

/-- A bullet rect; its width and height are fixed at 20 × 40 (lines 41, 470-471). -/
structure Bullet where
  x : Int
  y : Int
deriving DecidableEq, Repr

/-- A stored user record (lines 240-241): password plus the two score fields;
the score fields are `Option` because the game-over code reads `high_score`
with `dict.get` and a default (line 522). -/
structure UserRec where
  password : String
  high_score : Option Nat
  last_score : Option Nat
deriving DecidableEq, Repr

/-- The persistent user mapping of users.json: an association list keyed by
username (insertion-ordered, like a Python dict). -/
abbrev Users := List (String × UserRec)

/-- `load_users` (lines 76-82): returns the store when the file is readable
and parses, and the empty mapping on `IOError` / `JSONDecodeError`. -/
def loadUsers (readable : Bool) (store : Users) : Users :=
  if readable then store else []

/-- Python `users[name]` / `name in users` lookup on the mapping. -/
def lookupUser : Users → String → Option UserRec
  | [], _ => none
  | (k, v) :: rest, name => if k = name then some v else lookupUser rest name

/-- Python `users[name] = r`: replace in place, or append if absent. -/
def setUser : Users → String → UserRec → Users
  | [], name, r => [(name, r)]
  | (k, v) :: rest, name, r =>
      if k = name then (k, r) :: rest else (k, v) :: setUser rest name r

/-- The login-button check of `login_screen` (lines 222-230):
`username in users and users[username]['password'] == password`; on success
returns the username with `users[username].get('high_score', 0)`, otherwise
the attempt is rejected (an error message, never an exception). -/
def loginAttempt (users : Users) (name pw : String) : Option (String × Nat) :=
  match lookupUser users name with
  | some r => if r.password = pw then some (name, r.high_score.getD 0) else none
  | none => none

/-- The whole mutable game state of Section 4 of main.py (player, bullets,
aliens, score, lives, state machine, quit flag). -/
structure GameSt where
  running : Bool
  mode : Mode
  playerX : Int
  playerY : Int
  playerX_change : Int
  playerY_change : Int
  player_damaged : Bool
  damage_timer : Int
  bullets : List Bullet
  last_bullet_time : Int
  aliens : List (Nat × Alien)
  nextTag : Nat
  score : Nat
  high_score : Nat
  lives : Int
deriving DecidableEq, Repr

/-- `pygame.Rect.clamp_ip` on one axis, exactly as implemented by pygame:
an overlarge rect is centered, otherwise the coordinate is pushed inside
`[bx, bx + bw - w]` (used at line 453 with the 60 × 60 player rect and the
screen rect `(0, 0, WIDTH, HEIGHT)`). -/
def clampCoord (x w bx bw : Int) : Int :=
  if w ≥ bw then bx + bw / 2 - w / 2
  else if x < bx then bx
  else if x + w > bx + bw then bx + bw - w
  else x

/-- `pygame.Rect.colliderect`: axis-aligned rectangle overlap with strict
inequalities. -/
def collideRect (x1 y1 w1 h1 x2 y2 w2 h2 : Int) : Bool :=
  decide (x1 < x2 + w2) && decide (y1 < y2 + h2) &&
    decide (x1 + w1 > x2) && decide (y1 + h1 > y2)

/-- Alien motion for one frame (lines 483-488): `x += x_change`, then on
touching either horizontal bound the direction flips and `y += alien_drop`. -/
def moveAlien (dropStep : Int) (a : Alien) : Alien :=
  let x1 := a.x + a.x_change
  if x1 ≤ 0 ∨ x1 + 60 ≥ WIDTH then
    { x := x1, y := a.y + dropStep, x_change := -a.x_change }
  else
    { x := x1, y := a.y, x_change := a.x_change }

/-- Mutation of the alien dict object with tag `i` shared between the
iteration snapshot and the live list (the `alien_obj['rect'].x += ...`
updates at lines 483-488 act on the object, hence on the live list entry). -/
def updateTag (l : List (Nat × Alien)) (i : Nat) (a : Alien) : List (Nat × Alien) :=
  l.map fun p => if p.1 = i then (p.1, a) else p

/-- Python `alien_obj in aliens` (lines 501, 511, 515): value-based membership. -/
def containsAlienValue (l : List (Nat × Alien)) (v : Alien) : Bool :=
  l.any fun p => decide (p.2 = v)

/-- Python `aliens.remove(alien_obj)` (lines 496, 501): removes the first
value-equal element. -/
def removeAlienValue : List (Nat × Alien) → Alien → List (Nat × Alien)
  | [], _ => []
  | p :: rest, v => if p.2 = v then rest else p :: removeAlienValue rest v

/-- Python `bullets.remove(bullet)` (line 502): removes the first value-equal
bullet. -/
def removeBullet : List Bullet → Bullet → List Bullet
  | [], _ => []
  | b :: rest, v => if b = v then rest else b :: removeBullet rest v

/-- The fire-rate limiter (lines 466-472): a bullet is appended at
`(playerX + 20, playerY)` iff the space key is held and more than
`bullet_delay` ms have passed since `last_bullet_time`; on acceptance the
timer is reset to the current time.  Returns the new bullet list and the new
`last_bullet_time`. -/
def fireStep (t : Int) (fireHeld : Bool) (lastTime : Int) (px py : Int)
    (bullets : List Bullet) : List Bullet × Int :=
  if fireHeld = true ∧ t - lastTime > bullet_delay then
    (bullets ++ [{ x := px + 20, y := py }], t)
  else
    (bullets, lastTime)

/-- One iteration of the alien loop (lines 482-516) for the snapshot element
`ta`: move the alien object (visible in the live list via `updateTag`), then
the player collision (lines 491-496: only when not damaged; removes the alien
with no replacement), then the bullet loop (lines 498-509: first colliding
bullet, score + 10, conditional removal, bullet consumed, replacement alien
appended, `break`), then the bottom-breach check (lines 511-513). -/
def stepAlien (dropStep : Int) (fresh : Nat → Alien) (t : Int) (px py : Int)
    (st : GameSt) (ta : Nat × Alien) : GameSt :=
  let a1 := moveAlien dropStep ta.2
  let st1 := { st with aliens := updateTag st.aliens ta.1 a1 }
  let st2 :=
    if collideRect px py 60 60 a1.x a1.y 60 60 = true ∧ st1.player_damaged = false then
      { st1 with lives := st1.lives - 1, player_damaged := true, damage_timer := t,
                 aliens := removeAlienValue st1.aliens a1 }
    else st1
  let st3 :=
    match st2.bullets.find? (fun b => collideRect b.x b.y 20 40 a1.x a1.y 60 60) with
    | some b =>
        { st2 with
            score := st2.score + 10,
            aliens :=
              (if containsAlienValue st2.aliens a1 = true then
                removeAlienValue st2.aliens a1
              else st2.aliens) ++ [(st2.nextTag, fresh st2.nextTag)],
            bullets := removeBullet st2.bullets b,
            nextTag := st2.nextTag + 1 }
    | none => st2
  if containsAlienValue st3.aliens a1 = true ∧ a1.y + 60 > HEIGHT then
    { st3 with lives := 0 }
  else st3

/-- The phases of a PLAYING frame that precede the alien loop (lines 448-479):
player motion and clamping (lines 450-454), damage-timer expiry (lines
457-463), firing (lines 466-472), and bullet motion and culling (lines
474-479). -/
def preTick (t : Int) (fireHeld : Bool) (st : GameSt) : GameSt :=
  let px := clampCoord (st.playerX + st.playerX_change) 60 0 WIDTH
  let py := clampCoord (st.playerY + st.playerY_change) 60 0 HEIGHT
  let damaged := st.player_damaged && decide (t - st.damage_timer < 300)
  let fired := fireStep t fireHeld st.last_bullet_time px py st.bullets
  let bullets2 :=
    (fired.1.map fun b => { b with y := b.y - bulletY_change }).filter
      fun b => decide (0 ≤ b.y + 40)
  { st with
    playerX := px, playerY := py, player_damaged := damaged,
    bullets := bullets2, last_bullet_time := fired.2 }

/-- The PLAYING-state simulation of one frame (lines 448-516): the pre-loop
phases followed by the alien loop (lines 482-516) over a snapshot of the
alien list, against the clamped player rect.  The game-over check that
follows it (lines 519-526) is `gameOverTransition`. -/
def simTick (dropStep : Int) (fresh : Nat → Alien) (t : Int) (fireHeld : Bool)
    (st : GameSt) : GameSt :=
  let st1 := preTick t fireHeld st
  st.aliens.foldl (stepAlien dropStep fresh t st1.playerX st1.playerY) st1

/-- The game-over check (lines 519-526): when lives have run out, the store is
re-read, `users[username]['last_score'] = score` is performed — a `KeyError`
(modelled as `none`) if the username is absent from the loaded mapping — the
high score is raised when beaten, the mapping is written back (the
`Option Users` component), and the state machine moves to GAME_OVER. -/
def gameOverTransition (username : String) (readable : Bool) (store : Users)
    (st : GameSt) : Option (GameSt × Option Users) :=
  if st.lives ≤ 0 then
    let users := loadUsers readable store
    match lookupUser users username with
    | none => none
    | some r =>
        let r1 := { r with last_score := some st.score }
        if st.score > r1.high_score.getD 0 then
          some ({ st with mode := Mode.GAME_OVER, high_score := st.score },
            some (setUser users username { r1 with high_score := some st.score }))
        else
          some ({ st with mode := Mode.GAME_OVER }, some (setUser users username r1))
  else some (st, none)

/-- One full pass of the per-frame game-state logic (lines 445-526) for the
current mode: in PLAYING, the simulation tick followed by the game-over
check; START and GAME_OVER only render.  `none` models an uncaught exception. -/
def tick (dropStep : Int) (fresh : Nat → Alien) (t : Int) (fireHeld : Bool)
    (username : String) (readable : Bool) (store : Users) (st : GameSt) :
    Option (GameSt × Option Users) :=
  if st.mode = Mode.PLAYING then
    gameOverTransition username readable store (simTick dropStep fresh t fireHeld st)
  else some (st, none)

/-- The logical keys handled by the main loop. -/
inductive Key where
  | escape
  | keyR
  | keyA
  | keyD
  | keyW
  | keyS
  | other
deriving DecidableEq, Repr

/-- The KEYDOWN handler (lines 406-422): escape quits; `R` in GAME_OVER
resets score, lives, player position and bullets and returns to START;
`a`/`d`/`w`/`s` while PLAYING set the per-axis velocity. -/
def handleKeyDown (k : Key) (st : GameSt) : GameSt :=
  let st0 := if k = Key.escape then { st with running := false } else st
  if st0.mode = Mode.GAME_OVER ∧ k = Key.keyR then
    { st0 with mode := Mode.START, score := 0, lives := 3,
               playerX := WIDTH / 2, playerY := HEIGHT - 150, bullets := [] }
  else if st0.mode = Mode.PLAYING then
    if k = Key.keyA then { st0 with playerX_change := -player_speed }
    else if k = Key.keyD then { st0 with playerX_change := player_speed }
    else if k = Key.keyW then { st0 with playerY_change := -player_speed }
    else if k = Key.keyS then { st0 with playerY_change := player_speed }
    else st0
  else st0

/-- The KEYUP handler (lines 424-426): releases only take effect while
PLAYING, where they zero the matching velocity axis. -/
def handleKeyUp (k : Key) (st : GameSt) : GameSt :=
  if st.mode = Mode.PLAYING then
    let st1 := if k = Key.keyA ∨ k = Key.keyD then { st with playerX_change := 0 } else st
    if k = Key.keyW ∨ k = Key.keyS then { st1 with playerY_change := 0 } else st1
  else st

/-- `spawn_initial_aliens` (lines 352-362): clears the alien list and appends
`num` aliens at oracle-supplied random positions; each new dict object gets a
fresh tag. -/
def spawnInitialAliens (num : Nat) (fresh : Nat → Alien) : List (Nat × Alien) :=
  (List.range num).map fun i => (i, fresh i)

/-- The START → PLAYING transition on a difficulty selection (lines 428-442):
loads the difficulty settings, spawns the initial wave and enters PLAYING.
Nothing else in the state is touched. -/
def startMatch (d : Difficulty) (fresh : Nat → Alien) (st : GameSt) : GameSt :=
  { st with mode := Mode.PLAYING,
            aliens := spawnInitialAliens (num_aliens d) fresh,
            nextTag := num_aliens d }

/-- A fixed respawn oracle used by the concrete scenarios. -/
def freshA : Nat → Alien := fun _ => { x := 100, y := 100, x_change := 4 }

/-- A baseline PLAYING state: player at rest at (900, 900), three lives,
no bullets, no damage. -/
def baseSt : GameSt := {
  running := true, mode := Mode.PLAYING,
  playerX := 900, playerY := 900, playerX_change := 0, playerY_change := 0,
  player_damaged := false, damage_timer := 0,
  bullets := [], last_bullet_time := 0,
  aliens := [], nextTag := 0, score := 0, high_score := 0, lives := 3 }

/-- An Easy-tier wave of 20 aliens, one of which (tag 19) is about to collide
with the player; the other 19 sit harmlessly in the spawn band. -/
def cex1St : GameSt := { baseSt with
  aliens := (List.range 20).map fun i => (i,
    if i = 19 then { x := 896, y := 900, x_change := 4 }
    else { x := 100 + 80 * (i : Int), y := 100, x_change := 4 }),
  nextTag := 20 }

/-- The stored record of the test user. -/
def rec0 : UserRec := { password := "pw", high_score := some 0, last_score := some 0 }

/-- The test user's name. -/
def uname : String := "p"

/-- The test user's password. -/
def pw0 : String := "pw"

/-- A store holding exactly the test user. -/
def store1 : Users := [(uname, rec0)]

/-- Three lives; alien 0 is about to breach the bottom (far from the player)
and alien 1 is about to collide with the player. -/
def cex2St : GameSt := { baseSt with
  aliens := [(0, { x := 100, y := 1021, x_change := 4 }),
             (1, { x := 896, y := 900, x_change := 4 })],
  nextTag := 2 }

/-- Three lives; a single alien that both breaches the bottom and collides
with the (not invulnerable) player on the same frame. -/
def cex7St : GameSt := { baseSt with
  playerX := 1000, playerY := 1020,
  aliens := [(0, { x := 996, y := 1021, x_change := 4 })],
  nextTag := 1 }

/-- A PLAYING state with a single alien about to breach the bottom: the tick
drives lives to 0 and reaches the game-over persistence write. -/
def c3St : GameSt := { baseSt with
  aliens := [(0, { x := 100, y := 1021, x_change := 4 })],
  nextTag := 1 }

/-- A PLAYING state whose lives are already exhausted. -/
def w3St : GameSt := { baseSt with lives := 0 }

/-- An invulnerable player, one live bullet about to kill alien 0, a second
alien cruising: the kill is replaced, so the wave keeps its size. -/
def w1St : GameSt := { baseSt with
  player_damaged := true, damage_timer := 900,
  bullets := [{ x := 510, y := 530 }],
  aliens := [(0, { x := 500, y := 500, x_change := 4 }),
             (1, { x := 700, y := 500, x_change := 4 })],
  nextTag := 2 }

/-- One faraway alien, three lives, no damage. -/
def w2St : GameSt := { baseSt with
  aliens := [(0, { x := 100, y := 100, x_change := 4 })], nextTag := 1 }

/-- A finished match: lives exhausted with a score of 50. -/
def w4St : GameSt := { baseSt with lives := 0, score := 50 }

/-- An invulnerable player (hit at t = 500) with one adversary touching it. -/
def w6St : GameSt := { baseSt with
  player_damaged := true, damage_timer := 500,
  aliens := [(0, { x := 896, y := 900, x_change := 4 })], nextTag := 1 }

/-- An invulnerable player and an adversary breaching the bottom boundary. -/
def w7St : GameSt := { baseSt with
  player_damaged := true, damage_timer := 900,
  aliens := [(0, { x := 100, y := 1021, x_change := 4 })], nextTag := 1 }

/-- A GAME_OVER state with leftovers from the finished match. -/
def w8St : GameSt := { baseSt with
  mode := Mode.GAME_OVER, score := 120, lives := 0,
  playerX := 371, playerY := 512, bullets := [{ x := 391, y := 312 }] }

/-- A GAME_OVER state where the match ended with the right-arrow key held. -/
def w10St : GameSt := { baseSt with
  mode := Mode.GAME_OVER, lives := 0, playerX_change := 7 }

/- Helper lemmas about the embedded operations. -/

theorem foldl_preserve {α β : Type} (f : β → α → β) (P : β → Prop)
    (h : ∀ b a, P b → P (f b a)) :
    ∀ (l : List α) (b : β), P b → P (l.foldl f b) := by
  intro l
  induction l with
  | nil => exact fun b hb => hb
  | cons x xs ih => exact fun b hb => ih (f b x) (h b x hb)

theorem stepAlien_frame (dropStep : Int) (fresh : Nat → Alien) (t px py : Int)
    (st : GameSt) (ta : Nat × Alien) :
    (stepAlien dropStep fresh t px py st ta).playerX = st.playerX ∧
    (stepAlien dropStep fresh t px py st ta).playerY = st.playerY ∧
    (stepAlien dropStep fresh t px py st ta).playerX_change = st.playerX_change ∧
    (stepAlien dropStep fresh t px py st ta).playerY_change = st.playerY_change ∧
    (stepAlien dropStep fresh t px py st ta).last_bullet_time = st.last_bullet_time ∧
    (stepAlien dropStep fresh t px py st ta).running = st.running ∧
    (stepAlien dropStep fresh t px py st ta).mode = st.mode ∧
    (stepAlien dropStep fresh t px py st ta).high_score = st.high_score := by
  simp only [stepAlien]
  repeat' split
  all_goals simp

theorem stepAlien_score_mono (dropStep : Int) (fresh : Nat → Alien) (t px py : Int)
    (st : GameSt) (ta : Nat × Alien) :
    st.score ≤ (stepAlien dropStep fresh t px py st ta).score := by
  simp only [stepAlien]
  repeat' split
  all_goals simp

theorem stepAlien_lives_inv (dropStep : Int) (fresh : Nat → Alien) (t px py : Int)
    (L : Int) (hL : 0 ≤ L) (st : GameSt) (ta : Nat × Alien)
    (h1 : st.lives ≤ L)
    (h2 : 0 ≤ st.lives ∨ (st.lives = -1 ∧ st.player_damaged = true)) :
    (stepAlien dropStep fresh t px py st ta).lives ≤ L ∧
      (0 ≤ (stepAlien dropStep fresh t px py st ta).lives ∨
        ((stepAlien dropStep fresh t px py st ta).lives = -1 ∧
          (stepAlien dropStep fresh t px py st ta).player_damaged = true)) := by
  obtain h2 | ⟨h2a, h2b⟩ := h2 <;>
    (simp only [stepAlien]; repeat' split) <;> simp_all <;> omega

theorem stepAlien_invuln (dropStep : Int) (fresh : Nat → Alien) (t px py : Int)
    (T L : Int) (st : GameSt) (ta : Nat × Alien)
    (hd : st.player_damaged = true) (hT : st.damage_timer = T)
    (hl : st.lives = L ∨ st.lives = 0) :
    (stepAlien dropStep fresh t px py st ta).player_damaged = true ∧
      (stepAlien dropStep fresh t px py st ta).damage_timer = T ∧
      ((stepAlien dropStep fresh t px py st ta).lives = L ∨
        (stepAlien dropStep fresh t px py st ta).lives = 0) := by
  simp only [stepAlien]
  repeat' split
  all_goals simp_all

theorem updateTag_map_fst (l : List (Nat × Alien)) (i : Nat) (a : Alien) :
    (updateTag l i a).map Prod.fst = l.map Prod.fst := by
  simp only [updateTag, List.map_map]
  apply List.map_congr_left
  intro p _
  by_cases h : p.1 = i <;> simp [h]

theorem updateTag_length (l : List (Nat × Alien)) (i : Nat) (a : Alien) :
    (updateTag l i a).length = l.length := by
  simp [updateTag]

theorem updateTag_append (l1 l2 : List (Nat × Alien)) (i : Nat) (a : Alien) :
    updateTag (l1 ++ l2) i a = updateTag l1 i a ++ updateTag l2 i a := by
  simp [updateTag]

theorem contains_updateTag (l : List (Nat × Alien)) (i : Nat) (a : Alien)
    (h : i ∈ l.map Prod.fst) :
    containsAlienValue (updateTag l i a) a = true := by
  induction l with
  | nil => simp at h
  | cons p rest ih =>
      simp only [List.map_cons, List.mem_cons] at h
      by_cases hp : p.1 = i
      · simp [containsAlienValue, updateTag, hp]
      · rcases h with h | h
        · exact absurd h.symm hp
        · have := ih h
          simp only [containsAlienValue, updateTag, List.map_cons, List.any_cons] at this ⊢
          simp [hp, this]

theorem removeAlienValue_length (l : List (Nat × Alien)) (v : Alien)
    (h : containsAlienValue l v = true) :
    (removeAlienValue l v).length + 1 = l.length := by
  induction l with
  | nil => simp [containsAlienValue] at h
  | cons p rest ih =>
      simp only [containsAlienValue, List.any_cons, Bool.or_eq_true, decide_eq_true_eq] at h
      by_cases hp : p.2 = v
      · simp [removeAlienValue, hp]
      · rcases h with h | h
        · exact absurd h hp
        · have h' := ih (by simpa [containsAlienValue] using h)
          simp only [removeAlienValue, if_neg hp, List.length_cons]
          omega

theorem removeAlienValue_append (l1 l2 : List (Nat × Alien)) (v : Alien) :
    removeAlienValue (l1 ++ l2) v =
      if containsAlienValue l1 v = true then removeAlienValue l1 v ++ l2
      else l1 ++ removeAlienValue l2 v := by
  induction l1 with
  | nil => simp [containsAlienValue, removeAlienValue]
  | cons p rest ih =>
      by_cases hp : p.2 = v
      · simp [removeAlienValue, hp, containsAlienValue]
      · have hcon : containsAlienValue (p :: rest) v = containsAlienValue rest v := by
          simp [containsAlienValue, hp]
        simp only [List.cons_append, removeAlienValue, if_neg hp, hcon, List.append_eq]
        rw [ih]
        by_cases hc : containsAlienValue rest v = true <;> simp [hc]

theorem containsAlienValue_middle (l1 l2 : List (Nat × Alien)) (p : Nat × Alien) :
    containsAlienValue (l1 ++ p :: l2) p.2 = true := by
  simp [containsAlienValue, List.any_append]

theorem stepAlien_aliens_damaged (dropStep : Int) (fresh : Nat → Alien) (t px py : Int)
    (st : GameSt) (ta : Nat × Alien) (hd : st.player_damaged = true) :
    (stepAlien dropStep fresh t px py st ta).player_damaged = true ∧
      ((stepAlien dropStep fresh t px py st ta).aliens =
          updateTag st.aliens ta.1 (moveAlien dropStep ta.2) ∨
        (stepAlien dropStep fresh t px py st ta).aliens =
          (if containsAlienValue (updateTag st.aliens ta.1 (moveAlien dropStep ta.2))
              (moveAlien dropStep ta.2) = true then
            removeAlienValue (updateTag st.aliens ta.1 (moveAlien dropStep ta.2))
              (moveAlien dropStep ta.2)
          else updateTag st.aliens ta.1 (moveAlien dropStep ta.2)) ++
            [(st.nextTag, fresh st.nextTag)]) := by
  simp only [stepAlien]
  repeat' split
  all_goals simp_all

theorem stepAlien_nobullets (dropStep : Int) (fresh : Nat → Alien) (t px py : Int)
    (st : GameSt) (ta : Nat × Alien)
    (hd : st.player_damaged = true) (hb : st.bullets = []) :
    (stepAlien dropStep fresh t px py st ta).bullets = [] ∧
      (stepAlien dropStep fresh t px py st ta).player_damaged = true ∧
      (stepAlien dropStep fresh t px py st ta).aliens.map Prod.fst =
        st.aliens.map Prod.fst ∧
      ((stepAlien dropStep fresh t px py st ta).lives = st.lives ∨
        (stepAlien dropStep fresh t px py st ta).lives = 0) := by
  simp only [stepAlien]
  repeat' split
  all_goals simp_all [updateTag_map_fst]

theorem stepAlien_breach (dropStep : Int) (fresh : Nat → Alien) (t px py : Int)
    (st : GameSt) (i : Nat) (a : Alien)
    (hd : st.player_damaged = true) (hb : st.bullets = [])
    (hfst : i ∈ st.aliens.map Prod.fst)
    (hbr : (moveAlien dropStep a).y + 60 > HEIGHT) :
    (stepAlien dropStep fresh t px py st (i, a)).lives = 0 := by
  have hcu := contains_updateTag st.aliens i (moveAlien dropStep a) hfst
  simp only [stepAlien]
  repeat' split
  all_goals simp_all

theorem alienLoop_length (dropStep : Int) (fresh : Nat → Alien) (t px py : Int) :
    ∀ (rest : List (Nat × Alien)) (st : GameSt) (A C D : List (Nat × Alien)),
      st.player_damaged = true →
      st.aliens = A ++ C ++ D →
      C.map Prod.fst = rest.map Prod.fst →
      (rest.foldl (stepAlien dropStep fresh t px py) st).aliens.length =
        st.aliens.length := by
  intro rest
  induction rest with
  | nil =>
      intro st A C D _ _ _
      rfl
  | cons hd tl ih =>
      intro st A C D hdam hsplit hfst
      cases C with
      | nil => simp at hfst
      | cons q C' =>
          obtain ⟨i, a0⟩ := hd
          have hq1 : q.1 = i := by simpa using congrArg (fun l => l.headD 0) hfst
          have hfst' : C'.map Prod.fst = tl.map Prod.fst := by
            simpa using congrArg List.tail hfst
          obtain ⟨hdam', hcases⟩ :=
            stepAlien_aliens_damaged dropStep fresh t px py st (i, a0) hdam
          have hUhead : updateTag (q :: C') i (moveAlien dropStep a0) =
              (i, moveAlien dropStep a0) :: updateTag C' i (moveAlien dropStep a0) := by
            simp [updateTag, hq1]
          have hU : updateTag st.aliens i (moveAlien dropStep a0) =
              updateTag A i (moveAlien dropStep a0) ++
                ((i, moveAlien dropStep a0) ::
                  (updateTag C' i (moveAlien dropStep a0) ++
                    updateTag D i (moveAlien dropStep a0))) := by
            rw [hsplit, updateTag_append, updateTag_append, hUhead]
            simp
          simp only [List.foldl_cons]
          rcases hcases with hA | hA
          · have hnext := ih (stepAlien dropStep fresh t px py st (i, a0))
              (updateTag A i (moveAlien dropStep a0) ++ [(i, moveAlien dropStep a0)])
              (updateTag C' i (moveAlien dropStep a0))
              (updateTag D i (moveAlien dropStep a0))
              hdam' (by rw [hA]; rw [hU]; simp) (by rw [updateTag_map_fst]; exact hfst')
            rw [hnext, hA, updateTag_length]
          · have hcontU : containsAlienValue
                (updateTag st.aliens i (moveAlien dropStep a0)) (moveAlien dropStep a0) = true := by
              rw [hU]
              exact containsAlienValue_middle _ _ (i, moveAlien dropStep a0)
            rw [if_pos hcontU] at hA
            rw [hU, removeAlienValue_append] at hA
            by_cases hcA : containsAlienValue
                (updateTag A i (moveAlien dropStep a0)) (moveAlien dropStep a0) = true
            · rw [if_pos hcA] at hA
              have hlenr := removeAlienValue_length _ _ hcA
              have hnext := ih (stepAlien dropStep fresh t px py st (i, a0))
                (removeAlienValue (updateTag A i (moveAlien dropStep a0))
                    (moveAlien dropStep a0) ++ [(i, moveAlien dropStep a0)])
                (updateTag C' i (moveAlien dropStep a0))
                (updateTag D i (moveAlien dropStep a0) ++ [(st.nextTag, fresh st.nextTag)])
                hdam' (by rw [hA]; simp) (by rw [updateTag_map_fst]; exact hfst')
              rw [hnext, hA, hsplit]
              simp only [List.length_append, List.length_cons, List.length_nil,
                updateTag_length]
              simp only [updateTag_length] at hlenr
              omega
            · rw [if_neg hcA] at hA
              have hrhead : removeAlienValue
                  ((i, moveAlien dropStep a0) ::
                    (updateTag C' i (moveAlien dropStep a0) ++
                      updateTag D i (moveAlien dropStep a0))) (moveAlien dropStep a0) =
                  updateTag C' i (moveAlien dropStep a0) ++
                    updateTag D i (moveAlien dropStep a0) := by
                simp [removeAlienValue]
              rw [hrhead] at hA
              have hnext := ih (stepAlien dropStep fresh t px py st (i, a0))
                (updateTag A i (moveAlien dropStep a0))
                (updateTag C' i (moveAlien dropStep a0))
                (updateTag D i (moveAlien dropStep a0) ++ [(st.nextTag, fresh st.nextTag)])
                hdam' (by rw [hA]; simp) (by rw [updateTag_map_fst]; exact hfst')
              rw [hnext, hA, hsplit]
              simp only [List.length_append, List.length_cons, List.length_nil,
                updateTag_length]
              omega

theorem clampCoord_bounds (x w bw : Int) (_hw : 0 < w) (hwb : w < bw) :
    0 ≤ clampCoord x w 0 bw ∧ clampCoord x w 0 bw ≤ bw - w := by
  unfold clampCoord
  split_ifs <;> omega

theorem foldl_stepAlien_player (dropStep : Int) (fresh : Nat → Alien) (t px py : Int)
    (l : List (Nat × Alien)) (b : GameSt) :
    (l.foldl (stepAlien dropStep fresh t px py) b).playerX = b.playerX ∧
    (l.foldl (stepAlien dropStep fresh t px py) b).playerY = b.playerY :=
  foldl_preserve _ (fun s => s.playerX = b.playerX ∧ s.playerY = b.playerY)
    (fun s a hs =>
      ⟨((stepAlien_frame _ _ _ _ _ s a).1).trans hs.1,
        ((stepAlien_frame _ _ _ _ _ s a).2.1).trans hs.2⟩)
    l b ⟨rfl, rfl⟩

theorem preTick_playerX (t : Int) (fireHeld : Bool) (st : GameSt) :
    (preTick t fireHeld st).playerX =
      clampCoord (st.playerX + st.playerX_change) 60 0 WIDTH := rfl

theorem preTick_playerY (t : Int) (fireHeld : Bool) (st : GameSt) :
    (preTick t fireHeld st).playerY =
      clampCoord (st.playerY + st.playerY_change) 60 0 HEIGHT := rfl

theorem preTick_lives (t : Int) (fireHeld : Bool) (st : GameSt) :
    (preTick t fireHeld st).lives = st.lives := rfl

theorem preTick_score (t : Int) (fireHeld : Bool) (st : GameSt) :
    (preTick t fireHeld st).score = st.score := rfl

theorem preTick_damage_timer (t : Int) (fireHeld : Bool) (st : GameSt) :
    (preTick t fireHeld st).damage_timer = st.damage_timer := rfl

theorem preTick_aliens (t : Int) (fireHeld : Bool) (st : GameSt) :
    (preTick t fireHeld st).aliens = st.aliens := rfl

theorem preTick_damaged_of_window (t : Int) (fireHeld : Bool) (st : GameSt)
    (h1 : st.player_damaged = true) (h3 : t - st.damage_timer < 300) :
    (preTick t fireHeld st).player_damaged = true := by
  simp [preTick, h1, h3]

theorem preTick_bullets_nil (t : Int) (st : GameSt) (hb : st.bullets = []) :
    (preTick t false st).bullets = [] := by
  simp [preTick, fireStep, hb]

theorem simTick_eq (dropStep : Int) (fresh : Nat → Alien) (t : Int)
    (fireHeld : Bool) (st : GameSt) :
    simTick dropStep fresh t fireHeld st =
      st.aliens.foldl
        (stepAlien dropStep fresh t (preTick t fireHeld st).playerX
          (preTick t fireHeld st).playerY)
        (preTick t fireHeld st) := rfl

theorem simTick_player (dropStep : Int) (fresh : Nat → Alien) (t : Int)
    (fireHeld : Bool) (st : GameSt) :
    (simTick dropStep fresh t fireHeld st).playerX =
      clampCoord (st.playerX + st.playerX_change) 60 0 WIDTH ∧
    (simTick dropStep fresh t fireHeld st).playerY =
      clampCoord (st.playerY + st.playerY_change) 60 0 HEIGHT := by
  rw [simTick_eq]
  obtain ⟨hx, hy⟩ := foldl_stepAlien_player dropStep fresh t
    (preTick t fireHeld st).playerX (preTick t fireHeld st).playerY
    st.aliens (preTick t fireHeld st)
  rw [hx, hy, preTick_playerX, preTick_playerY]
  exact ⟨rfl, rfl⟩

theorem stepAlien_lives_nonpos (dropStep : Int) (fresh : Nat → Alien) (t px py : Int)
    (st : GameSt) (ta : Nat × Alien) (h : st.lives ≤ 0) :
    (stepAlien dropStep fresh t px py st ta).lives ≤ 0 := by
  simp only [stepAlien]
  repeat' split
  all_goals simp_all
  all_goals omega

theorem foldl_stepAlien_lives_nonpos (dropStep : Int) (fresh : Nat → Alien)
    (t px py : Int) (l : List (Nat × Alien)) (b : GameSt) (h : b.lives ≤ 0) :
    (l.foldl (stepAlien dropStep fresh t px py) b).lives ≤ 0 :=
  foldl_preserve _ (fun s => s.lives ≤ 0)
    (fun s a hs => stepAlien_lives_nonpos dropStep fresh t px py s a hs)
    l b h

theorem simTick_lives_nonpos (dropStep : Int) (fresh : Nat → Alien) (t : Int)
    (fireHeld : Bool) (st : GameSt) (h : st.lives ≤ 0) :
    (simTick dropStep fresh t fireHeld st).lives ≤ 0 := by
  rw [simTick_eq]
  exact foldl_stepAlien_lives_nonpos dropStep fresh t _ _ st.aliens _
    ((preTick_lives t fireHeld st).le.trans h)

theorem foldl_stepAlien_mono (dropStep : Int) (fresh : Nat → Alien) (t px py : Int)
    (L : Int) (S : Nat) (hL : 0 ≤ L) (l : List (Nat × Alien)) (b : GameSt)
    (h1 : b.lives ≤ L)
    (h2 : 0 ≤ b.lives ∨ (b.lives = -1 ∧ b.player_damaged = true))
    (h3 : S ≤ b.score) :
    ((l.foldl (stepAlien dropStep fresh t px py) b).lives ≤ L ∧
      (0 ≤ (l.foldl (stepAlien dropStep fresh t px py) b).lives ∨
        ((l.foldl (stepAlien dropStep fresh t px py) b).lives = -1 ∧
          (l.foldl (stepAlien dropStep fresh t px py) b).player_damaged = true))) ∧
      S ≤ (l.foldl (stepAlien dropStep fresh t px py) b).score := by
  refine foldl_preserve _
    (fun s => (s.lives ≤ L ∧
      (0 ≤ s.lives ∨ (s.lives = -1 ∧ s.player_damaged = true))) ∧ S ≤ s.score)
    ?_ l b ⟨⟨h1, h2⟩, h3⟩
  intro s a hs
  exact ⟨stepAlien_lives_inv dropStep fresh t px py L hL s a hs.1.1 hs.1.2,
    hs.2.trans (stepAlien_score_mono dropStep fresh t px py s a)⟩

theorem simTick_mono (dropStep : Int) (fresh : Nat → Alien) (t : Int)
    (fireHeld : Bool) (st : GameSt) (h : 1 ≤ st.lives) :
    st.score ≤ (simTick dropStep fresh t fireHeld st).score ∧
      (simTick dropStep fresh t fireHeld st).lives ≤ st.lives ∧
      -1 ≤ (simTick dropStep fresh t fireHeld st).lives := by
  rw [simTick_eq]
  obtain ⟨⟨ha, hb⟩, hc⟩ := foldl_stepAlien_mono dropStep fresh t
    (preTick t fireHeld st).playerX (preTick t fireHeld st).playerY
    st.lives st.score (by omega) st.aliens (preTick t fireHeld st)
    ((preTick_lives t fireHeld st).le) (Or.inl (by rw [preTick_lives]; omega))
    ((preTick_score t fireHeld st).ge)
  refine ⟨hc, ha, ?_⟩
  rcases hb with hb | ⟨hb, _⟩ <;> omega

theorem foldl_stepAlien_invuln (dropStep : Int) (fresh : Nat → Alien) (t px py : Int)
    (T L : Int) (l : List (Nat × Alien)) (b : GameSt)
    (hd : b.player_damaged = true) (hT : b.damage_timer = T)
    (hl : b.lives = L ∨ b.lives = 0) :
    (l.foldl (stepAlien dropStep fresh t px py) b).player_damaged = true ∧
      (l.foldl (stepAlien dropStep fresh t px py) b).damage_timer = T ∧
      ((l.foldl (stepAlien dropStep fresh t px py) b).lives = L ∨
        (l.foldl (stepAlien dropStep fresh t px py) b).lives = 0) := by
  refine foldl_preserve _
    (fun s => s.player_damaged = true ∧ s.damage_timer = T ∧ (s.lives = L ∨ s.lives = 0))
    ?_ l b ⟨hd, hT, hl⟩
  intro s a hs
  exact stepAlien_invuln dropStep fresh t px py T L s a hs.1 hs.2.1 hs.2.2

theorem simTick_invuln (dropStep : Int) (fresh : Nat → Alien) (t : Int)
    (fireHeld : Bool) (st : GameSt)
    (h1 : st.player_damaged = true) (h3 : t - st.damage_timer < 300) :
    (simTick dropStep fresh t fireHeld st).player_damaged = true ∧
      (simTick dropStep fresh t fireHeld st).damage_timer = st.damage_timer ∧
      ((simTick dropStep fresh t fireHeld st).lives = st.lives ∨
        (simTick dropStep fresh t fireHeld st).lives = 0) := by
  rw [simTick_eq]
  exact foldl_stepAlien_invuln dropStep fresh t _ _ st.damage_timer st.lives
    st.aliens (preTick t fireHeld st)
    (preTick_damaged_of_window t fireHeld st h1 h3)
    (preTick_damage_timer t fireHeld st)
    (Or.inl (preTick_lives t fireHeld st))

theorem simTick_aliens_length_invuln (dropStep : Int) (fresh : Nat → Alien) (t : Int)
    (fireHeld : Bool) (st : GameSt)
    (h1 : st.player_damaged = true) (h3 : t - st.damage_timer < 300) :
    (simTick dropStep fresh t fireHeld st).aliens.length = st.aliens.length := by
  rw [simTick_eq]
  have := alienLoop_length dropStep fresh t
    (preTick t fireHeld st).playerX (preTick t fireHeld st).playerY
    st.aliens (preTick t fireHeld st) [] st.aliens []
    (preTick_damaged_of_window t fireHeld st h1 h3)
    (by rw [preTick_aliens]; simp)
    rfl
  rw [this, preTick_aliens]

theorem simTick_breach_invuln (dropStep : Int) (fresh : Nat → Alien) (t : Int)
    (st : GameSt) (i : Nat) (a : Alien)
    (h1 : st.player_damaged = true) (h3 : t - st.damage_timer < 300)
    (hb : st.bullets = []) (hmem : (i, a) ∈ st.aliens)
    (hbr : (moveAlien dropStep a).y + 60 > HEIGHT) :
    (simTick dropStep fresh t false st).lives = 0 := by
  rw [simTick_eq]
  obtain ⟨l1, l2, hsp⟩ := List.append_of_mem hmem
  rw [hsp, List.foldl_append, List.foldl_cons]
  have hQ1 := foldl_preserve
    (stepAlien dropStep fresh t (preTick t false st).playerX (preTick t false st).playerY)
    (fun s => s.bullets = [] ∧ s.player_damaged = true ∧
      s.aliens.map Prod.fst = st.aliens.map Prod.fst)
    (fun s a' hs => by
      obtain ⟨hba, hda, hfa, _⟩ :=
        stepAlien_nobullets dropStep fresh t _ _ s a' hs.2.1 hs.1
      exact ⟨hba, hda, hfa.trans hs.2.2⟩)
    l1 (preTick t false st)
    ⟨preTick_bullets_nil t st hb, preTick_damaged_of_window t false st h1 h3,
      by rw [preTick_aliens]⟩
  have hfsti : i ∈ (l1.foldl (stepAlien dropStep fresh t (preTick t false st).playerX
      (preTick t false st).playerY) (preTick t false st)).aliens.map Prod.fst := by
    rw [hQ1.2.2]
    exact List.mem_map_of_mem Prod.fst hmem
  have hlv0 := stepAlien_breach dropStep fresh t
    (preTick t false st).playerX (preTick t false st).playerY _ i a
    hQ1.2.1 hQ1.1 hfsti hbr
  obtain ⟨hb2, hd2, _, _⟩ := stepAlien_nobullets dropStep fresh t
    (preTick t false st).playerX (preTick t false st).playerY _ (i, a)
    hQ1.2.1 hQ1.1
  have hfin := foldl_preserve
    (stepAlien dropStep fresh t (preTick t false st).playerX (preTick t false st).playerY)
    (fun s => s.bullets = [] ∧ s.player_damaged = true ∧ s.lives = 0)
    (fun s a' hs => by
      obtain ⟨hba, hda, _, hlv⟩ :=
        stepAlien_nobullets dropStep fresh t _ _ s a' hs.2.1 hs.1
      refine ⟨hba, hda, ?_⟩
      rcases hlv with hlv | hlv
      · rw [hlv, hs.2.2]
      · exact hlv)
    l2 _ ⟨hb2, hd2, hlv0⟩
  exact hfin.2.2

theorem lookup_setUser (u : Users) (name : String) (r : UserRec) :
    lookupUser (setUser u name r) name = some r := by
  induction u with
  | nil => simp [setUser, lookupUser]
  | cons p rest ih =>
      obtain ⟨k, v⟩ := p
      by_cases hk : k = name
      · simp [setUser, lookupUser, hk]
      · simp [setUser, lookupUser, hk, ih]

theorem handleKeyDown_restart (st : GameSt) (h : st.mode = Mode.GAME_OVER) :
    handleKeyDown Key.keyR st =
      { st with mode := Mode.START, score := 0, lives := 3,
                playerX := WIDTH / 2, playerY := HEIGHT - 150, bullets := [] } := by
  simp [handleKeyDown, h]

theorem handleKeyUp_nonplaying (k : Key) (st : GameSt) (h : st.mode ≠ Mode.PLAYING) :
    handleKeyUp k st = st := by
  simp [handleKeyUp, h]


/- Theorems settling the specification claims. -/
set_option maxRecDepth 4000 in
/-- C1 (counterexample): on an Easy-tier PLAYING tick in which an adversary
collides with the not-invulnerable player, the adversary is removed with no
replacement: the population drops from 20 (the tier's adversary_count) to 19,
so the population count is not invariant. -/
theorem spec_C1_counterexample :
    cex1St.mode = Mode.PLAYING ∧
    cex1St.aliens.length = num_aliens Difficulty.easy ∧
    ((tick (alien_drop Difficulty.easy) freshA 1000 false uname true store1 cex1St).map
      fun r => r.1.aliens.length) = some 19 ∧
    (19 : Nat) ≠ num_aliens Difficulty.easy := by decide

/-- C1 (amended): projectile kills do replace the consumed adversary, so on
any PLAYING tick on which the player is inside the invulnerability window (so
no adversary can be consumed by a player hit) the adversary population count
is preserved; only a player hit removes an adversary without a replacement. -/
theorem spec_C1_amended (dropStep : Int) (fresh : Nat → Alien) (t : Int)
    (fireHeld : Bool) (st : GameSt)
    (h1 : st.player_damaged = true) (h3 : t - st.damage_timer < 300) :
    (simTick dropStep fresh t fireHeld st).aliens.length = st.aliens.length :=
  simTick_aliens_length_invuln dropStep fresh t fireHeld st h1 h3

/-- C1 (witness): a concrete invulnerable-player tick in which a bullet kills
an adversary; the population size stays 2. -/
theorem spec_C1_witness :
    (simTick 50 freshA 1000 false w1St).aliens.length = 2 :=
  (spec_C1_amended 50 freshA 1000 false w1St rfl (by decide)).trans (by decide)

/-- C2 (counterexample): with lives = 3, an adversary that breaches the
bottom boundary (forcing lives to 0) processed before another adversary that
hits the not-invulnerable player (lives -= 1) leaves lives = -1 at the end of
the tick: lives does become negative. -/
theorem spec_C2_counterexample :
    cex2St.mode = Mode.PLAYING ∧ cex2St.lives = 3 ∧
    ((tick 50 freshA 1000 false uname true store1 cex2St).map
      fun r => r.1.lives) = some (-1) := by decide

/-- C2 (amended): within a match, across one PLAYING tick score is
monotonically non-decreasing and lives is monotonically non-increasing, and
lives never drops below -1; lives can reach -1 (only) on a tick where a
bottom breach is processed before a player hit, so "never negative" fails but
"never below -1" holds. -/
theorem spec_C2_amended (dropStep : Int) (fresh : Nat → Alien) (t : Int)
    (fireHeld : Bool) (st : GameSt) (h : 1 ≤ st.lives) :
    st.score ≤ (simTick dropStep fresh t fireHeld st).score ∧
      (simTick dropStep fresh t fireHeld st).lives ≤ st.lives ∧
      -1 ≤ (simTick dropStep fresh t fireHeld st).lives :=
  simTick_mono dropStep fresh t fireHeld st h

/-- C2 (witness): the monotonicity bounds instantiated on a concrete tick. -/
theorem spec_C2_witness :
    w2St.score ≤ (simTick 50 freshA 1000 false w2St).score ∧
      (simTick 50 freshA 1000 false w2St).lives ≤ w2St.lives ∧
      -1 ≤ (simTick 50 freshA 1000 false w2St).lives :=
  spec_C2_amended 50 freshA 1000 false w2St (by decide)

/-- C3 (counterexample): a PLAYING tick that exhausts lives (an adversary
breaches the bottom) with an unreadable/corrupt user store: `load_users`
returns the empty mapping, and `users[username]['last_score'] = score` then
raises KeyError — modelled as `none` — so the read failure IS fatal at the
game-over write. -/
theorem spec_C3_counterexample :
    c3St.mode = Mode.PLAYING ∧ c3St.lives = 3 ∧
    tick 50 freshA 1000 false uname false store1 c3St = none := by decide

/-- C3 (amended): a persistence read failure is substituted by an empty
mapping, and at the login screen execution continues without raising (a login
attempt against the empty mapping is merely rejected); but at the
PLAYING-to-GAME_OVER score write the subsequent indexing of the empty mapping
by the logged-in username raises KeyError, so the failure is fatal there. -/
theorem spec_C3_amended :
    (∀ store : Users, loadUsers false store = []) ∧
    (∀ name pw : String, loginAttempt [] name pw = none) ∧
    (∀ (dropStep : Int) (fresh : Nat → Alien) (t : Int) (fireHeld : Bool)
      (u : String) (store : Users) (st : GameSt),
      st.mode = Mode.PLAYING → st.lives ≤ 0 →
      tick dropStep fresh t fireHeld u false store st = none) := by
  refine ⟨fun store => rfl, fun name pw => rfl, ?_⟩
  intro dropStep fresh t fireHeld u store st hmode hlv
  have h0 := simTick_lives_nonpos dropStep fresh t fireHeld st hlv
  simp [tick, hmode, gameOverTransition, h0, loadUsers, lookupUser]

/-- C3 (witness): the empty-mapping substitution, a rejected (non-crashing)
login against it, and the fatal game-over write on a concrete corrupt-store
tick. -/
theorem spec_C3_witness :
    loadUsers false store1 = [] ∧ loginAttempt [] uname pw0 = none ∧
    tick 50 freshA 1000 false uname false store1 w3St = none :=
  ⟨spec_C3_amended.1 store1, spec_C3_amended.2.1 uname pw0,
    spec_C3_amended.2.2 50 freshA 1000 false uname store1 w3St rfl (by decide)⟩

/-- C4: the match-end update (the PLAYING-to-GAME_OVER write) for a stored
user u with final score s, followed by a lookup of u, yields a record whose
high_score is max(previous high_score, s) and whose last_score is s; in
particular the stored high_score is never lowered. -/
theorem spec_C4_update_lookup (u : String) (store : Users) (st : GameSt)
    (r : UserRec) (hlu : lookupUser store u = some r) (hl : st.lives ≤ 0) :
    ∃ st2 w, gameOverTransition u true store st = some (st2, some w) ∧
      ∃ r2, lookupUser w u = some r2 ∧
        r2.last_score = some st.score ∧
        r2.high_score.getD 0 = max (r.high_score.getD 0) st.score ∧
        r.high_score.getD 0 ≤ r2.high_score.getD 0 := by
  unfold gameOverTransition
  rw [if_pos hl]
  have hload : loadUsers true store = store := rfl
  rw [hload]
  simp only [hlu]
  split
  next hgt =>
    refine ⟨_, _, rfl, _, lookup_setUser store u _, rfl, ?_, ?_⟩
    · simp only [Option.getD_some]
      omega
    · simp only [Option.getD_some]
      omega
  next hgt =>
    refine ⟨_, _, rfl, _, lookup_setUser store u _, rfl, ?_, le_refl _⟩
    show r.high_score.getD 0 = max (r.high_score.getD 0) st.score
    omega

/-- C4 (witness): the update-then-lookup property on a concrete finished
match (score 50 against a stored high score of 0). -/
theorem spec_C4_witness :
    ∃ st2 w, gameOverTransition uname true store1 w4St = some (st2, some w) ∧
      ∃ r2, lookupUser w uname = some r2 ∧
        r2.last_score = some w4St.score ∧
        r2.high_score.getD 0 = max (rec0.high_score.getD 0) w4St.score ∧
        rec0.high_score.getD 0 ≤ r2.high_score.getD 0 :=
  spec_C4_update_lookup uname store1 w4St rec0 (by decide) (by decide)

/-- C5: on every PLAYING tick, after motion and clamping the player's
position lies in [0, WIDTH - 60] × [0, HEIGHT - 60] (the play area minus the
60 × 60 craft), for every state and hence every input sequence. -/
theorem spec_C5_player_clamped (dropStep : Int) (fresh : Nat → Alien) (t : Int)
    (fireHeld : Bool) (st : GameSt) :
    0 ≤ (simTick dropStep fresh t fireHeld st).playerX ∧
      (simTick dropStep fresh t fireHeld st).playerX ≤ WIDTH - 60 ∧
      0 ≤ (simTick dropStep fresh t fireHeld st).playerY ∧
      (simTick dropStep fresh t fireHeld st).playerY ≤ HEIGHT - 60 := by
  obtain ⟨hx, hy⟩ := simTick_player dropStep fresh t fireHeld st
  rw [hx, hy]
  obtain ⟨hx0, hx1⟩ := clampCoord_bounds (st.playerX + st.playerX_change) 60 WIDTH
    (by decide) (by decide)
  obtain ⟨hy0, hy1⟩ := clampCoord_bounds (st.playerY + st.playerY_change) 60 HEIGHT
    (by decide) (by decide)
  exact ⟨hx0, hx1, hy0, hy1⟩

/-- C6: if the player was hit at time T (damage flag set, timer = T), then on
any tick at a time inside (T, T + 300 ms) the damage flag survives the expiry
check, the invulnerability timer is not restarted (damage_timer is unchanged),
and no player-adversary collision decrements lives: lives is unchanged unless
a bottom breach forces it to 0. -/
theorem spec_C6_invulnerability (dropStep : Int) (fresh : Nat → Alien) (t : Int)
    (fireHeld : Bool) (st : GameSt)
    (h1 : st.player_damaged = true) (_h2 : st.damage_timer < t)
    (h3 : t - st.damage_timer < 300) :
    (simTick dropStep fresh t fireHeld st).player_damaged = true ∧
      (simTick dropStep fresh t fireHeld st).damage_timer = st.damage_timer ∧
      ((simTick dropStep fresh t fireHeld st).lives = st.lives ∨
        (simTick dropStep fresh t fireHeld st).lives = 0) :=
  simTick_invuln dropStep fresh t fireHeld st h1 h3

/-- C6 (witness): a concrete tick at t = 600 after a hit at T = 500, with an
adversary touching the invulnerable player: flag still set, timer still 500,
lives untouched. -/
theorem spec_C6_witness :
    (simTick 50 freshA 600 false w6St).player_damaged = true ∧
      (simTick 50 freshA 600 false w6St).damage_timer = w6St.damage_timer ∧
      ((simTick 50 freshA 600 false w6St).lives = w6St.lives ∨
        (simTick 50 freshA 600 false w6St).lives = 0) :=
  spec_C6_invulnerability 50 freshA 600 false w6St rfl (by decide) (by decide)

/-- C7 (counterexample): an adversary whose moved bounding box passes the
bottom of the play area but which also collides with the not-invulnerable
player on the same tick is removed by the collision before the breach check
(`alien_obj in aliens` fails), so lives goes from 3 to 2 — not to 0 — and the
state machine stays in PLAYING. -/
theorem spec_C7_counterexample :
    cex7St.mode = Mode.PLAYING ∧ cex7St.lives = 3 ∧
    cex7St.player_damaged = false ∧
    (∃ p ∈ cex7St.aliens, (moveAlien 50 p.2).y + 60 > HEIGHT) ∧
    ((tick 50 freshA 1000 false uname true store1 cex7St).map
      fun r => (r.1.lives, r.1.mode)) = some (2, Mode.PLAYING) := by decide

/-- C7 (amended): if an adversary's moved bounding box passes the bottom of
the play area and the adversary is not consumed earlier in the tick — in
particular whenever the player is inside the invulnerability window and no
projectile is live or fired — then lives is set to 0 on that tick regardless
of its prior value, and the tick ends in GAME_OVER (the logged-in user being
present in a readable store, so the persistence write succeeds). -/
theorem spec_C7_breach_forces_loss (dropStep : Int) (fresh : Nat → Alien)
    (t : Int) (st : GameSt) (u : String) (store : Users) (r : UserRec)
    (i : Nat) (a : Alien)
    (hmode : st.mode = Mode.PLAYING)
    (h1 : st.player_damaged = true) (h3 : t - st.damage_timer < 300)
    (hb : st.bullets = []) (hmem : (i, a) ∈ st.aliens)
    (hbr : (moveAlien dropStep a).y + 60 > HEIGHT)
    (hlu : lookupUser store u = some r) :
    ∃ res, tick dropStep fresh t false u true store st = some res ∧
      res.1.lives = 0 ∧ res.1.mode = Mode.GAME_OVER := by
  have hlv := simTick_breach_invuln dropStep fresh t st i a h1 h3 hb hmem hbr
  unfold tick
  rw [if_pos hmode]
  unfold gameOverTransition
  rw [if_pos hlv.le]
  have hload : loadUsers true store = store := rfl
  rw [hload]
  simp only [hlu]
  split
  · exact ⟨_, rfl, by simp [hlv], rfl⟩
  · exact ⟨_, rfl, by simp [hlv], rfl⟩

/-- C7 (witness): a concrete invulnerable-player tick with a breaching
adversary: lives is forced from 3 to 0 and the mode becomes GAME_OVER. -/
theorem spec_C7_witness :
    ∃ res, tick 50 freshA 1000 false uname true store1 w7St = some res ∧
      res.1.lives = 0 ∧ res.1.mode = Mode.GAME_OVER :=
  spec_C7_breach_forces_loss 50 freshA 1000 w7St uname store1 rec0 0
    { x := 100, y := 1021, x_change := 4 } rfl rfl (by decide) rfl
    (by decide) (by decide) (by decide)

/-- C8: from GAME_OVER, the restart input (the R key) resets score to 0,
lives to 3, the player to the fixed spawn position (WIDTH / 2, HEIGHT - 150),
clears all live projectiles, and moves the state machine to START; nothing
else in the state changes. -/
theorem spec_C8_restart (st : GameSt) (h : st.mode = Mode.GAME_OVER) :
    handleKeyDown Key.keyR st =
      { st with mode := Mode.START, score := 0, lives := 3,
                playerX := WIDTH / 2, playerY := HEIGHT - 150, bullets := [] } :=
  handleKeyDown_restart st h

/-- C8 (witness): the restart reset on a concrete finished match. -/
theorem spec_C8_witness :
    handleKeyDown Key.keyR w8St =
      { w8St with mode := Mode.START, score := 0, lives := 3,
                  playerX := WIDTH / 2, playerY := HEIGHT - 150, bullets := [] } :=
  spec_C8_restart w8St rfl

/-- C9: a projectile is spawned on a tick iff the fire input is held and
(current_time - last_fire_time) > bullet_delay; on acceptance the projectile
is appended (at any list size — projectiles coexist without bound) at the
craft's muzzle point (playerX + 20, playerY) and last_fire_time becomes the
current time; otherwise the projectile list and the timer are unchanged. -/
theorem spec_C9_fire_limiter (t : Int) (fireHeld : Bool) (lastTime px py : Int)
    (bs : List Bullet) :
    ((fireStep t fireHeld lastTime px py bs).1.length = bs.length + 1 ↔
      (fireHeld = true ∧ t - lastTime > bullet_delay)) ∧
    (fireHeld = true → t - lastTime > bullet_delay →
      fireStep t fireHeld lastTime px py bs =
        (bs ++ [{ x := px + 20, y := py }], t)) ∧
    (¬(fireHeld = true ∧ t - lastTime > bullet_delay) →
      fireStep t fireHeld lastTime px py bs = (bs, lastTime)) := by
  refine ⟨?_, ?_, ?_⟩
  · unfold fireStep
    split
    next h => simp [h]
    next h => simp [h]
  · intro hheld ht
    unfold fireStep
    rw [if_pos ⟨hheld, ht⟩]
  · intro h
    unfold fireStep
    rw [if_neg h]

/-- C9 (witness): a fire input held at t = 200 with last_fire_time 0 spawns a
bullet at the muzzle of a craft at (5, 7) and resets the timer. -/
theorem spec_C9_witness :
    fireStep 200 true 0 5 7 [] = ([{ x := 25, y := 7 }], 200) :=
  (spec_C9_fire_limiter 200 true 0 5 7 []).2.1 rfl (by decide)

/-- C10: the GAME_OVER-to-START restart leaves both velocity components
untouched, key releases are ignored outside PLAYING (so a key held at match
end cannot be cleared), the START-to-PLAYING transition also keeps the
velocity, and on the first PLAYING tick of the next match the craft has
already moved from the spawn position by the stale velocity. -/
theorem spec_C10_stale_velocity (st : GameSt) (d : Difficulty)
    (f f2 : Nat → Alien) (dropStep t : Int) (h : st.mode = Mode.GAME_OVER) :
    (handleKeyDown Key.keyR st).playerX_change = st.playerX_change ∧
    (handleKeyDown Key.keyR st).playerY_change = st.playerY_change ∧
    (∀ (k : Key) (st2 : GameSt), st2.mode ≠ Mode.PLAYING → handleKeyUp k st2 = st2) ∧
    (startMatch d f (handleKeyDown Key.keyR st)).playerX_change = st.playerX_change ∧
    (simTick dropStep f2 t false (startMatch d f (handleKeyDown Key.keyR st))).playerX =
      clampCoord (WIDTH / 2 + st.playerX_change) 60 0 WIDTH ∧
    (simTick dropStep f2 t false (startMatch d f (handleKeyDown Key.keyR st))).playerY =
      clampCoord (HEIGHT - 150 + st.playerY_change) 60 0 HEIGHT := by
  have hr := handleKeyDown_restart st h
  obtain ⟨hx, hy⟩ := simTick_player dropStep f2 t false
    (startMatch d f (handleKeyDown Key.keyR st))
  refine ⟨by rw [hr], by rw [hr], handleKeyUp_nonplaying,
    by rw [hr]; rfl, ?_, ?_⟩
  · rw [hx, hr]
    all_goals rfl
  · rw [hy, hr]
    all_goals rfl

/-- C10 (witness): a match that ended with the D key held (velocity +7): the
restart keeps the velocity and the first tick of the next match moves the
craft off the spawn point. -/
theorem spec_C10_witness :
    (handleKeyDown Key.keyR w10St).playerX_change = w10St.playerX_change ∧
    (handleKeyDown Key.keyR w10St).playerY_change = w10St.playerY_change ∧
    (∀ (k : Key) (st2 : GameSt), st2.mode ≠ Mode.PLAYING → handleKeyUp k st2 = st2) ∧
    (startMatch Difficulty.easy freshA (handleKeyDown Key.keyR w10St)).playerX_change =
      w10St.playerX_change ∧
    (simTick 50 freshA 1000 false
        (startMatch Difficulty.easy freshA (handleKeyDown Key.keyR w10St))).playerX =
      clampCoord (WIDTH / 2 + w10St.playerX_change) 60 0 WIDTH ∧
    (simTick 50 freshA 1000 false
        (startMatch Difficulty.easy freshA (handleKeyDown Key.keyR w10St))).playerY =
      clampCoord (HEIGHT - 150 + w10St.playerY_change) 60 0 HEIGHT :=
  spec_C10_stale_velocity w10St Difficulty.easy freshA freshA 50 1000 rfl
